import Mathlib

/-!
Shallow embedding of the real-time notification hub of `src/api/notifications.rs`
(bitwarden_rs): the binary frame encoder (`serialize`, `serialize_date`),
the message envelope (`create_update`, `UpdateType`), the per-user connection
registry (`CHashMap<String, Vec<Sender>>` with `upsert` / `remove_item`), the
WebSocket handler callbacks (`on_open`, `on_message`, `connection_lost`) and the
publish operations (`send_update`, `send_user_update`, `send_folder_update`,
`send_cipher_update`).  Machine integers are modelled as `Nat`/`Int`; Rust
panics are modelled as `Option.none` at the outcome level; the external JWT
verifier is a parameter. -/

/-! ### Binary frame encoder: varint length prefix (`serialize`, lines 53-81) -/

/-- Model of the length-prefix loop of `serialize`: repeatedly emit
`size & 0x7f`, OR-ing `0x80` into the byte when `size >> 7` is still
positive, until the remaining size is zero.  Mirrors the Rust `loop` with
its `size = size >> 7` shift and the final-byte break condition. -/
def lenBuf (size : Nat) : List Nat :=
  if h : 0 < size >>> 7 then ((size &&& 0x7f) ||| 0x80) :: lenBuf (size >>> 7)
  else [size &&& 0x7f]
termination_by size
decreasing_by
  simp only [Nat.shiftRight_eq_div_pow] at *
  omega

/-- Model of `serialize`: the rmpv-encoded buffer is opaque to the framing
layer, so the function is taken over an arbitrary byte payload, exactly as
the claim quantifies.  The frame is the varint length prefix followed by
the payload. -/
def serialize (buf : List Nat) : List Nat :=
  lenBuf buf.length ++ buf

/-- Base-128 varint decoder (the client side of `BinaryMessageFormat.js`
framing): bytes with the `0x80` continuation bit set contribute 7 low bits
each, little-endian. -/
def decodeVarint : List Nat → Option (Nat × List Nat)
  | [] => none
  | b :: rest =>
    if b &&& 0x80 = 0 then some (b &&& 0x7f, rest)
    else
      match decodeVarint rest with
      | none => none
      | some (n, rest') => some ((b &&& 0x7f) + 128 * n, rest')

theorem and_127_eq_mod (n : Nat) : n &&& 127 = n % 128 := by
  have h : (127 : Nat) = 2 ^ 7 - 1 := rfl
  rw [h, Nat.and_pow_two_sub_one_eq_mod]

theorem or_128_and_127 (n : Nat) : ((n &&& 127) ||| 128) &&& 127 = n &&& 127 := by
  have h : ((n &&& 127) ||| 128) &&& 127 = ((n &&& 127) &&& 127) ||| (128 &&& 127) := by
    rw [Nat.and_comm _ 127, Nat.and_or_distrib_left, Nat.and_comm 127, Nat.and_comm 127]
  rw [h, Nat.and_assoc, show (127 &&& 127 : Nat) = 127 from by decide,
    show (128 &&& 127 : Nat) = 0 from by decide, Nat.or_zero]

theorem or_128_and_128 (n : Nat) : ((n &&& 127) ||| 128) &&& 128 = 128 := by
  have h : ((n &&& 127) ||| 128) &&& 128 = ((n &&& 127) &&& 128) ||| (128 &&& 128) := by
    rw [Nat.and_comm _ 128, Nat.and_or_distrib_left, Nat.and_comm 128, Nat.and_comm 128]
  rw [h, Nat.and_assoc, show (127 &&& 128 : Nat) = 0 from by decide, Nat.and_zero,
    Nat.zero_or, show (128 &&& 128 : Nat) = 128 from by decide]

theorem decodeVarint_cons_last (b : Nat) (r : List Nat) (hb : b &&& 0x80 = 0) :
    decodeVarint (b :: r) = some (b &&& 0x7f, r) := by
  simp [decodeVarint, hb]

theorem decodeVarint_cons_cont (b m : Nat) (r r' : List Nat) (hb : ¬b &&& 0x80 = 0)
    (hr : decodeVarint r = some (m, r')) :
    decodeVarint (b :: r) = some ((b &&& 0x7f) + 128 * m, r') := by
  simp [decodeVarint, hb, hr]

theorem decodeVarint_lenBuf (n : Nat) : ∀ rest, decodeVarint (lenBuf n ++ rest) = some (n, rest) := by
  induction n using Nat.strong_induction_on with
  | _ n ih =>
    intro rest
    rw [lenBuf]
    by_cases h : 0 < n >>> 7
    · rw [dif_pos h, List.cons_append]
      have hrec := ih (n >>> 7) (by
        rw [Nat.shiftRight_eq_div_pow] at h ⊢
        omega) rest
      rw [decodeVarint_cons_cont _ _ _ _ (by rw [or_128_and_128]; omega) hrec,
        or_128_and_127, and_127_eq_mod]
      rw [Nat.shiftRight_eq_div_pow] at h ⊢
      have : n % 128 + 128 * (n / 2 ^ 7) = n := by omega
      rw [this]
    · rw [dif_neg h]
      have hlt : n < 128 := by
        rw [Nat.shiftRight_eq_div_pow] at h
        omega
      rw [List.singleton_append,
        decodeVarint_cons_last _ _
          (by rw [Nat.and_assoc, show (127 &&& 128 : Nat) = 0 from by decide, Nat.and_zero]),
        Nat.and_assoc, show (127 &&& 127 : Nat) = 127 from by decide, and_127_eq_mod,
        Nat.mod_eq_of_lt hlt]

/-- Claim C5: for every byte payload, the frame produced by `serialize` is the
payload preceded by a base-128 varint length prefix, and decoding that prefix
yields exactly the byte length of the remainder of the frame. -/
theorem serialize_varint_roundtrip (buf : List Nat) :
    serialize buf = lenBuf buf.length ++ buf ∧
    decodeVarint (serialize buf) = some (buf.length, buf) :=
  ⟨rfl, decodeVarint_lenBuf buf.length buf⟩

/-! ### MsgPack value model (rmpv::Value as used by the hub) and
`serialize_date` (lines 83-98) -/

/-- The subset of `rmpv::Value` constructors the hub builds: `Nil`,
`Integer`, `String`, `Array`, `Map` and `Ext`. -/
inductive Value where
  | nil : Value
  | int (i : Int) : Value
  | str (s : String) : Value
  | arr (items : List Value) : Value
  | map (entries : List (Value × Value)) : Value
  | ext (tag : Int) (data : List Nat) : Value

/-- Model of `chrono::NaiveDateTime` as the hub reads it: epoch seconds
(`timestamp()`) and nanosecond-of-second (`timestamp_subsec_nanos()`). -/
structure DateTime where
  secs : Nat
  nsecs : Nat
deriving DecidableEq

/-- Big-endian byte decomposition of the low 64 bits, modelling
`write_i64::<BigEndian>` on a non-negative value (each byte reads bits
below 64 only, so the two's-complement truncation is implicit). -/
def toBeBytes8 (n : Nat) : List Nat :=
  [(n >>> 56) &&& 255, (n >>> 48) &&& 255, (n >>> 40) &&& 255, (n >>> 32) &&& 255,
   (n >>> 24) &&& 255, (n >>> 16) &&& 255, (n >>> 8) &&& 255, n &&& 255]

/-- Big-endian decoding of a byte list. -/
def decodeBE (bs : List Nat) : Nat :=
  bs.foldl (fun acc b => acc * 256 + b) 0

/-- Model of `serialize_date`: pack `(nanos << 34) | seconds` into 8
big-endian bytes and tag them as msgpack extension type `-1`. -/
def serializeDate (d : DateTime) : Value :=
  Value.ext (-1) (toBeBytes8 ((d.nsecs <<< 34) ||| d.secs))

theorem and_255_eq_mod (n : Nat) : n &&& 255 = n % 256 := by
  have h : (255 : Nat) = 2 ^ 8 - 1 := rfl
  rw [h, Nat.and_pow_two_sub_one_eq_mod]

theorem decodeBE_toBeBytes8 (n : Nat) (h : n < 2 ^ 64) : decodeBE (toBeBytes8 n) = n := by
  simp only [toBeBytes8, decodeBE, List.foldl, and_255_eq_mod, Nat.shiftRight_eq_div_pow]
  norm_num
  omega

/-- Claim C6: `serialize_date` packs a timestamp as
`packed = (nanos << 34) | seconds` into 8 big-endian bytes tagged as msgpack
extension type `-1`, and big-endian-decoding those bytes reproduces `packed`
exactly (stated for every packed value that fits a non-negative `i64`, which
covers seconds=1700000000, nanos=123456789). -/
theorem serialize_date_spec (secs nsecs : Nat) (h : (nsecs <<< 34) ||| secs < 2 ^ 63) :
    serializeDate ⟨secs, nsecs⟩ = Value.ext (-1) (toBeBytes8 ((nsecs <<< 34) ||| secs)) ∧
    (toBeBytes8 ((nsecs <<< 34) ||| secs)).length = 8 ∧
    decodeBE (toBeBytes8 ((nsecs <<< 34) ||| secs)) = (nsecs <<< 34) ||| secs :=
  ⟨rfl, rfl, decodeBE_toBeBytes8 _ (lt_trans h (by norm_num))⟩

/-- Witness for C6 at the claim's concrete input: seconds=1700000000,
nanos=123456789. -/
theorem serialize_date_spec_witness :
    ((123456789 <<< 34) ||| 1700000000 < 2 ^ 63) ∧
    decodeBE (toBeBytes8 ((123456789 <<< 34) ||| 1700000000)) =
      (123456789 <<< 34) ||| 1700000000 :=
  ⟨by decide, (serialize_date_spec 1700000000 123456789 (by decide)).2.2⟩

/-! ### Event model: `UpdateType` (lines 334-350), `create_update`
(lines 312-328) and the publish payloads (lines 251-294) -/

/-- The `UpdateType` enum with the discriminants assigned in the source. -/
inductive UpdateType where
  | SyncCipherUpdate
  | SyncCipherCreate
  | SyncLoginDelete
  | SyncFolderDelete
  | SyncCiphers
  | SyncVault
  | SyncOrgKeys
  | SyncFolderCreate
  | SyncFolderUpdate
  | SyncCipherDelete
  | SyncSettings
  | LogOut
deriving DecidableEq

/-- The numeric discriminant of each `UpdateType` variant (the `ut as i32`
cast): `SyncCipherUpdate = 0`, `SyncCipherCreate = 1`, ..., `LogOut = 11`,
verbatim from the enum declaration. -/
def updateTypeTag : UpdateType → Int
  | .SyncCipherUpdate => 0
  | .SyncCipherCreate => 1
  | .SyncLoginDelete => 2
  | .SyncFolderDelete => 3
  | .SyncCiphers => 4
  | .SyncVault => 5
  | .SyncOrgKeys => 6
  | .SyncFolderCreate => 7
  | .SyncFolderUpdate => 8
  | .SyncCipherDelete => 9
  | .SyncSettings => 10
  | .LogOut => 11

/-- Model of `create_update`, up to the external msgpack byte encoder: the
`rmpv::Value` structure handed to `serialize`, built exactly as in the
source. -/
def createUpdateValue (payload : List (Value × Value)) (ut : UpdateType) : Value :=
  Value.arr
    [Value.int 1,
     Value.arr [],
     Value.nil,
     Value.str "ReceiveMessage",
     Value.arr
       [Value.map
         [(Value.str "ContextId", Value.str "app_id"),
          (Value.str "Type", Value.int (updateTypeTag ut)),
          (Value.str "Payload", Value.map payload)]]]

/-- Model of `convert_option` at the `String` instantiation the hub uses. -/
def convertOption (o : Option String) : Value :=
  match o with
  | some a => Value.str a
  | none => Value.nil

/-- The fields of `db::models::User` read by `send_user_update`. -/
structure User where
  uuid : String
  updated_at : DateTime

/-- The fields of `db::models::Folder` read by `send_folder_update`. -/
structure Folder where
  uuid : String
  user_uuid : String
  updated_at : DateTime

/-- The fields of `db::models::Cipher` read by `send_cipher_update`. -/
structure Cipher where
  uuid : String
  user_uuid : Option String
  organization_uuid : Option String
  updated_at : DateTime

/-- The payload `Vec<(Value, Value)>` built by `send_user_update`
(lines 252-258): keys `UserId` and `Date`. -/
def userUpdatePayload (user : User) : List (Value × Value) :=
  [(Value.str "UserId", Value.str user.uuid),
   (Value.str "Date", serializeDate user.updated_at)]

/-- The payload built by `send_folder_update` (lines 264-270): keys `Id`,
`UserId` and `RevisionDate`. -/
def folderUpdatePayload (folder : Folder) : List (Value × Value) :=
  [(Value.str "Id", Value.str folder.uuid),
   (Value.str "UserId", Value.str folder.user_uuid),
   (Value.str "RevisionDate", serializeDate folder.updated_at)]

/-- The payload built by `send_cipher_update` (lines 280-288): keys `Id`,
`UserId`, `OrganizationId`, `CollectionIds` (hardcoded `Value::Nil`) and
`RevisionDate`. -/
def cipherUpdatePayload (cipher : Cipher) : List (Value × Value) :=
  [(Value.str "Id", Value.str cipher.uuid),
   (Value.str "UserId", convertOption cipher.user_uuid),
   (Value.str "OrganizationId", convertOption cipher.organization_uuid),
   (Value.str "CollectionIds", Value.nil),
   (Value.str "RevisionDate", serializeDate cipher.updated_at)]

/-- Lookup of a string key in a msgpack map. -/
def mapGet (k : String) : List (Value × Value) → Option Value
  | [] => none
  | (kk, vv) :: rest =>
    match kk with
    | Value.str s => if s = k then some vv else mapGet k rest
    | _ => mapGet k rest

/-- The `Type` entry of the single envelope argument of a frame value of
the shape produced by `create_update`. -/
def envelopeType (v : Value) : Option Value :=
  match v with
  | Value.arr [_, _, _, _, Value.arr [Value.map entries]] => mapGet "Type" entries
  | _ => none

/-- Claim C9: every frame value produced for a publish call is the fixed
five-position envelope: message-kind marker 1, empty header array, null
correlation id, the literal target-method name "ReceiveMessage", and a
one-element argument array binding ContextId to the constant "app_id",
Type to the numeric tag, and Payload to the event fields. -/
theorem create_update_envelope (payload : List (Value × Value)) (ut : UpdateType) :
    createUpdateValue payload ut =
      Value.arr
        [Value.int 1,
         Value.arr [],
         Value.nil,
         Value.str "ReceiveMessage",
         Value.arr
           [Value.map
             [(Value.str "ContextId", Value.str "app_id"),
              (Value.str "Type", Value.int (updateTypeTag ut)),
              (Value.str "Payload", Value.map payload)]]] := rfl

/-- Counterexample to C7: the claim assigns cipher sub-cases create, update,
delete the tags 0, 1, 9 respectively, but in the source `SyncCipherUpdate = 0`
and `SyncCipherCreate = 1`: the create/update assignments are swapped. -/
theorem update_type_claim_false :
    ¬(updateTypeTag UpdateType.SyncCipherCreate = 0 ∧
      updateTypeTag UpdateType.SyncCipherUpdate = 1 ∧
      updateTypeTag UpdateType.SyncCipherDelete = 9 ∧
      updateTypeTag UpdateType.SyncFolderDelete = 3 ∧
      updateTypeTag UpdateType.SyncFolderCreate = 7 ∧
      updateTypeTag UpdateType.SyncFolderUpdate = 8) := by
  intro h
  exact absurd h.1 (by decide)

/-- Claim C7 (amended): the numeric event-type tag transmitted verbatim as
the envelope's Type field is fixed as: cipher sub-cases update, create,
delete carry tags 0, 1, 9 respectively, and folder sub-cases delete, create,
update carry tags 3, 7, 8 respectively. -/
theorem update_type_tags :
    updateTypeTag UpdateType.SyncCipherUpdate = 0 ∧
    updateTypeTag UpdateType.SyncCipherCreate = 1 ∧
    updateTypeTag UpdateType.SyncCipherDelete = 9 ∧
    updateTypeTag UpdateType.SyncFolderDelete = 3 ∧
    updateTypeTag UpdateType.SyncFolderCreate = 7 ∧
    updateTypeTag UpdateType.SyncFolderUpdate = 8 ∧
    ∀ (payload : List (Value × Value)) (ut : UpdateType),
      envelopeType (createUpdateValue payload ut) = some (Value.int (updateTypeTag ut)) := by
  refine ⟨rfl, rfl, rfl, rfl, rfl, rfl, fun payload ut => rfl⟩

/-- Counterexample to C8: the user-update payload does not key its
last-modified timestamp as `RevisionDate` — the source uses the key `Date`. -/
theorem user_update_payload_no_revision_date :
    (Value.str "RevisionDate") ∉
      (userUpdatePayload ⟨"u1", ⟨0, 0⟩⟩).map Prod.fst := by
  intro h
  simp only [userUpdatePayload, List.map, List.mem_cons, List.not_mem_nil, or_false] at h
  rcases h with h | h <;> exact absurd (Value.str.inj h) (by decide)

/-- Claim C8 (amended): the folder-update payload uses exactly the wire keys
Id, UserId, RevisionDate and the cipher-update payload exactly Id, UserId,
OrganizationId, CollectionIds, RevisionDate; but the user-update payload
keys its last-modified timestamp as `Date` (not `RevisionDate`) and carries
no Id field, and the cipher-update payload's CollectionIds field is always
null — the operation takes no collection list and never transmits one. -/
theorem payload_wire_keys :
    (∀ user : User,
      (userUpdatePayload user).map Prod.fst = [Value.str "UserId", Value.str "Date"]) ∧
    (∀ folder : Folder,
      (folderUpdatePayload folder).map Prod.fst =
        [Value.str "Id", Value.str "UserId", Value.str "RevisionDate"]) ∧
    (∀ cipher : Cipher,
      (cipherUpdatePayload cipher).map Prod.fst =
        [Value.str "Id", Value.str "UserId", Value.str "OrganizationId",
         Value.str "CollectionIds", Value.str "RevisionDate"] ∧
      mapGet "CollectionIds" (cipherUpdatePayload cipher) = some Value.nil) :=
  ⟨fun _ => rfl, fun _ => rfl, fun _ => ⟨rfl, rfl⟩⟩

/-! ### Connection registry: `CHashMap<String, Vec<Sender>>` with `upsert`
(`on_open`, lines 155-159) and `remove_item` (`connection_lost`,
lines 228-231) -/

/-- A `ws::Sender` handle, compared by equality as `Vec::remove_item` does. -/
abbrev Conn := Nat

/-- The registry: `Arc<CHashMap<String, Vec<Sender>>>`.  `none` models an
absent key (`CHashMap::get` returning `None`). -/
abbrev Registry := String → Option (List Conn)

def emptyReg : Registry := fun _ => none

/-- Model of the `upsert` in `on_open`: insert `vec![sender]` when the key is
absent, push onto the existing vector otherwise (both branches collapse to
appending to the current-or-empty vector). -/
def registerConn (u : String) (c : Conn) (r : Registry) : Registry :=
  fun v => if v = u then some (((r u).getD []) ++ [c]) else r v

/-- Model of `Vec::remove_item`: remove the first element equal to `c`. -/
def removeItem (c : Conn) : List Conn → List Conn
  | [] => []
  | x :: xs => if x = c then xs else x :: removeItem c xs

/-- Model of the removal in `connection_lost`: `get_mut` the entry if present
and `remove_item` the sender; no-op when the key is absent. -/
def deregisterConn (u : String) (c : Conn) (r : Registry) : Registry :=
  fun v => if v = u then (r u).map (removeItem c) else r v

/-- Registry lookup as `send_update` reads it: an absent entry is an empty
connection list. -/
def lookupConns (r : Registry) (u : String) : List Conn :=
  (r u).getD []

/-- A register or deregister event on the registry, as issued by the
connection lifecycle (`on_open` / `connection_lost`). -/
inductive Op where
  | reg (u : String) (c : Conn)
  | dereg (u : String) (c : Conn)
deriving DecidableEq

def applyOp (op : Op) (r : Registry) : Registry :=
  match op with
  | .reg u c => registerConn u c r
  | .dereg u c => deregisterConn u c r

def applyOps (ops : List Op) (r : Registry) : Registry :=
  ops.foldl (fun r op => applyOp op r) r

/-- The connection handle registered by an op, if it is a registration. -/
def regConn : Op → Option Conn
  | .reg _ c => some c
  | .dereg _ _ => none

/-- Well-formed op sequences: each connection handle is registered at most
once, which is what the connection lifecycle guarantees (each `Sender`
goes through `on_open` exactly once). -/
abbrev WF (ops : List Op) : Prop := (ops.filterMap regConn).Nodup

/-- Whether an op concerns the pair (user `u`, connection `c`). -/
def relevant (u : String) (c : Conn) (op : Op) : Bool :=
  match op with
  | .reg u' c' => decide (u' = u ∧ c' = c)
  | .dereg u' c' => decide (u' = u ∧ c' = c)

def isRegOp : Op → Bool
  | .reg _ _ => true
  | .dereg _ _ => false

/-- Declarative "registered and not yet deregistered": the most recent op
concerning (u, c) is a registration. -/
def specActive (u : String) (c : Conn) (ops : List Op) : Bool :=
  match (ops.reverse).find? (relevant u c) with
  | some op => isRegOp op
  | none => false

theorem lookupConns_registerConn (u : String) (c : Conn) (r : Registry) (v : String) :
    lookupConns (registerConn u c r) v =
      if v = u then lookupConns r u ++ [c] else lookupConns r v := by
  by_cases h : v = u <;> simp [lookupConns, registerConn, h]

theorem lookupConns_deregisterConn (u : String) (c : Conn) (r : Registry) (v : String) :
    lookupConns (deregisterConn u c r) v =
      if v = u then removeItem c (lookupConns r u) else lookupConns r v := by
  by_cases h : v = u
  · rw [if_pos h]
    cases hr : r u <;> simp [lookupConns, deregisterConn, h, hr, removeItem]
  · simp [lookupConns, deregisterConn, h]

theorem removeItem_sublist (c : Conn) (l : List Conn) : List.Sublist (removeItem c l) l := by
  induction l with
  | nil => simp [removeItem]
  | cons x xs ih =>
    rw [removeItem]
    by_cases h : x = c
    · rw [if_pos h]
      exact List.sublist_cons_self x xs
    · rw [if_neg h]
      exact ih.cons₂ x

theorem nodup_removeItem (c : Conn) (l : List Conn) (h : l.Nodup) :
    (removeItem c l).Nodup :=
  (removeItem_sublist c l).nodup h

theorem mem_removeItem (c x : Conn) (l : List Conn) (h : l.Nodup) :
    x ∈ removeItem c l ↔ x ∈ l ∧ x ≠ c := by
  induction l with
  | nil => simp [removeItem]
  | cons a xs ih =>
    rw [List.nodup_cons] at h
    obtain ⟨ha, hxs⟩ := h
    rw [removeItem]
    by_cases hac : a = c
    · subst hac
      rw [if_pos rfl]
      simp only [List.mem_cons]
      constructor
      · intro hx
        exact ⟨Or.inr hx, fun hxa => ha (hxa ▸ hx)⟩
      · rintro ⟨hx | hx, hne⟩
        · exact absurd hx hne
        · exact hx
    · rw [if_neg hac]
      simp only [List.mem_cons, ih hxs]
      constructor
      · rintro (rfl | ⟨hx, hne⟩)
        · exact ⟨Or.inl rfl, fun h' => hac h'⟩
        · exact ⟨Or.inr hx, hne⟩
      · rintro ⟨rfl | hx, hne⟩
        · exact Or.inl rfl
        · exact Or.inr ⟨hx, hne⟩

theorem specActive_append_one (u : String) (c : Conn) (op : Op) (ops : List Op) :
    specActive u c (ops ++ [op]) =
      cond (relevant u c op) (isRegOp op) (specActive u c ops) := by
  unfold specActive
  rw [List.reverse_append, List.reverse_singleton, List.singleton_append]
  by_cases h : relevant u c op = true
  · rw [List.find?_cons_of_pos _ h, h, Bool.cond_true]
  · rw [List.find?_cons_of_neg _ h, Bool.eq_false_iff.mpr h, Bool.cond_false]

theorem specActive_true_reg_mem (u : String) (c : Conn) (ops : List Op)
    (h : specActive u c ops = true) : Op.reg u c ∈ ops := by
  unfold specActive at h
  cases hf : (ops.reverse).find? (relevant u c) with
  | none => rw [hf] at h; cases h
  | some op =>
    rw [hf] at h
    have hmem := List.mem_of_find?_eq_some hf
    have hrel := List.find?_some hf
    cases op with
    | reg u' c' =>
      simp only [relevant, decide_eq_true_eq] at hrel
      obtain ⟨rfl, rfl⟩ := hrel
      exact List.mem_reverse.mp hmem
    | dereg u' c' => simp [isRegOp] at h

theorem filterMap_nodup_inj {l : List Op} (h : (l.filterMap regConn).Nodup) :
    ∀ a ∈ l, ∀ b ∈ l, ∀ c, regConn a = some c → regConn b = some c → a = b := by
  induction l with
  | nil =>
    intro a ha
    simp at ha
  | cons x xs ih =>
    intro a ha b hb c hfa hfb
    rw [List.filterMap_cons] at h
    cases hx : regConn x with
    | none =>
      rw [hx] at h
      rcases List.mem_cons.mp ha with rfl | ha'
      · rw [hfa] at hx; cases hx
      rcases List.mem_cons.mp hb with rfl | hb'
      · rw [hfb] at hx; cases hx
      exact ih h a ha' b hb' c hfa hfb
    | some d =>
      rw [hx] at h
      rw [List.nodup_cons] at h
      obtain ⟨hd, hnd⟩ := h
      rcases List.mem_cons.mp ha with rfl | ha' <;> rcases List.mem_cons.mp hb with rfl | hb'
      · rfl
      · exfalso
        rw [hfa] at hx
        injection hx with hdc
        subst hdc
        exact hd (List.mem_filterMap.mpr ⟨b, hb', hfb⟩)
      · exfalso
        rw [hfb] at hx
        injection hx with hdc
        subst hdc
        exact hd (List.mem_filterMap.mpr ⟨a, ha', hfa⟩)
      · exact ih hnd a ha' b hb' c hfa hfb

theorem applyOps_spec (ops : List Op) (hwf : WF ops) :
    (∀ u, (lookupConns (applyOps ops emptyReg) u).Nodup) ∧
    (∀ u c, c ∈ lookupConns (applyOps ops emptyReg) u ↔ specActive u c ops = true) := by
  induction ops using List.reverseRecOn with
  | nil =>
    constructor
    · intro u
      simp [applyOps, lookupConns, emptyReg]
    · intro u c
      simp [applyOps, lookupConns, emptyReg, specActive, List.find?]
  | append_singleton ops op ih =>
    have hwf' : WF ops := by
      rw [WF, List.filterMap_append] at hwf
      exact (List.nodup_append.mp hwf).1
    obtain ⟨ihN, ihM⟩ := ih hwf'
    have happ : applyOps (ops ++ [op]) emptyReg = applyOp op (applyOps ops emptyReg) := by
      simp [applyOps, List.foldl_append]
    cases op with
    | reg u c =>
      have hcnot : c ∉ ops.filterMap regConn := by
        rw [WF, List.filterMap_append] at hwf
        have hd := (List.nodup_append.mp hwf).2.2
        intro hc
        exact hd hc (by simp [List.filterMap, regConn])
      have hnew : ∀ u', specActive u' c ops = false := by
        intro u'
        cases hsa : specActive u' c ops with
        | false => rfl
        | true =>
          exfalso
          exact hcnot
            (List.mem_filterMap.mpr ⟨Op.reg u' c, specActive_true_reg_mem u' c ops hsa, rfl⟩)
      constructor
      · intro v
        rw [happ]
        show (lookupConns (registerConn u c (applyOps ops emptyReg)) v).Nodup
        rw [lookupConns_registerConn]
        by_cases hv : v = u
        · rw [if_pos hv]
          have hcmem : c ∉ lookupConns (applyOps ops emptyReg) u := by
            intro hc
            have h2 := (ihM u c).mp hc
            rw [hnew u] at h2
            cases h2
          rw [List.nodup_append]
          refine ⟨ihN u, List.nodup_singleton c, ?_⟩
          intro x hx hxc
          rw [List.mem_singleton] at hxc
          subst hxc
          exact hcmem hx
        · rw [if_neg hv]
          exact ihN v
      · intro v c₁
        rw [happ]
        show c₁ ∈ lookupConns (registerConn u c (applyOps ops emptyReg)) v ↔ _
        rw [lookupConns_registerConn, specActive_append_one]
        by_cases hv : v = u
        · subst hv
          rw [if_pos rfl]
          by_cases hc : c₁ = c
          · subst hc
            have hrel : relevant v c₁ (Op.reg v c₁) = true := by simp [relevant]
            rw [hrel, Bool.cond_true]
            simp [isRegOp, List.mem_append]
          · have hrel : relevant v c₁ (Op.reg v c) = false :=
              decide_eq_false (fun h => hc h.2.symm)
            rw [hrel, Bool.cond_false, List.mem_append, List.mem_singleton,
              or_iff_left hc]
            exact ihM v c₁
        · rw [if_neg hv]
          have hrel : relevant v c₁ (Op.reg u c) = false :=
            decide_eq_false (fun h => hv h.1.symm)
          rw [hrel, Bool.cond_false]
          exact ihM v c₁
    | dereg u c =>
      constructor
      · intro v
        rw [happ]
        show (lookupConns (deregisterConn u c (applyOps ops emptyReg)) v).Nodup
        rw [lookupConns_deregisterConn]
        by_cases hv : v = u
        · rw [if_pos hv]
          exact nodup_removeItem c _ (ihN u)
        · rw [if_neg hv]
          exact ihN v
      · intro v c₁
        rw [happ]
        show c₁ ∈ lookupConns (deregisterConn u c (applyOps ops emptyReg)) v ↔ _
        rw [lookupConns_deregisterConn, specActive_append_one]
        by_cases hv : v = u
        · subst hv
          rw [if_pos rfl]
          by_cases hc : c₁ = c
          · subst hc
            have hrel : relevant v c₁ (Op.dereg v c₁) = true := by simp [relevant]
            rw [hrel, Bool.cond_true]
            simp only [isRegOp]
            constructor
            · intro hmem
              have h2 := (mem_removeItem c₁ c₁ _ (ihN v)).mp hmem
              exact absurd rfl h2.2
            · intro h2
              cases h2
          · have hrel : relevant v c₁ (Op.dereg v c) = false :=
              decide_eq_false (fun h => hc h.2.symm)
            rw [hrel, Bool.cond_false, mem_removeItem c c₁ _ (ihN v), and_iff_left hc]
            exact ihM v c₁
        · rw [if_neg hv]
          have hrel : relevant v c₁ (Op.dereg u c) = false :=
            decide_eq_false (fun h => hv h.1.symm)
          rw [hrel, Bool.cond_false]
          exact ihM v c₁

/-- Counterexample to C2: the claim quantifies over every finite sequence of
register/deregister operations, but registering the same connection handle
twice under the same identity (`upsert` pushes unconditionally) produces a
duplicate entry, violating the no-duplicates part of the claim. -/
theorem registry_duplicate_on_double_register :
    ¬(lookupConns (applyOps [Op.reg "u1" 0, Op.reg "u1" 0] emptyReg) "u1").Nodup := by
  decide

/-- Claim C2 (amended): for every finite sequence of register and deregister
operations in which each connection handle is registered at most once (as
the connection lifecycle guarantees), at every point `lookup u` holds
exactly the set of connections registered and not yet deregistered under
`u` — no duplicates, no phantom entries — and each connection handle
appears in at most one user's entry. -/
theorem registry_invariant (ops : List Op) (hwf : WF ops) :
    ∀ u, (lookupConns (applyOps ops emptyReg) u).Nodup ∧
      (∀ c, c ∈ lookupConns (applyOps ops emptyReg) u ↔ specActive u c ops = true) ∧
      (∀ u' c, u ≠ u' → c ∈ lookupConns (applyOps ops emptyReg) u →
        c ∉ lookupConns (applyOps ops emptyReg) u') := by
  obtain ⟨hN, hM⟩ := applyOps_spec ops hwf
  intro u
  refine ⟨hN u, fun c => hM u c, ?_⟩
  intro u' c hne hu hu'
  have h1 := specActive_true_reg_mem u c ops ((hM u c).mp hu)
  have h2 := specActive_true_reg_mem u' c ops ((hM u' c).mp hu')
  have h3 := filterMap_nodup_inj hwf _ h1 _ h2 c rfl rfl
  injection h3 with h4 h5
  exact hne h4

/-- Witness for C2 at a concrete well-formed op sequence. -/
theorem registry_invariant_witness :
    WF [Op.reg "u1" 0, Op.reg "u2" 1, Op.dereg "u1" 0] ∧
    (lookupConns (applyOps [Op.reg "u1" 0, Op.reg "u2" 1, Op.dereg "u1" 0] emptyReg) "u2").Nodup :=
  ⟨by decide, (registry_invariant _ (by decide) "u2").1⟩

/-! ### Hub publish operations: `send_update` (lines 241-248) and the
public wrappers (lines 251-294) -/

/-- One pass of the `for sender in user.iter()` loop in `send_update` with a
given per-connection failure behaviour: returns the connections the frame
was delivered to and the `ws::Result` of the loop.  The `?` on
`sender.send(...)` aborts the loop at the first failing sender. -/
def sendLoop (fail : Conn → Bool) : List Conn → List Conn × Bool
  | [] => ([], true)
  | c :: rest =>
    if fail c then ([], false)
    else
      let p := sendLoop fail rest
      (c :: p.1, p.2)

/-- Model of `send_update`: look up the user's senders (skip silently when
absent) and run the send loop.  The first component is the set of
connections that received the frame; the second is the returned
`ws::Result` (`true` = `Ok`). -/
def sendUpdate (fail : Conn → Bool) (r : Registry) (u : String) : List Conn × Bool :=
  match r u with
  | none => ([], true)
  | some conns => sendLoop fail conns

/-- Model of `send_user_update`: builds the payload, calls `send_update` and
discards its result with `.ok()` — only the delivery transcript remains. -/
def sendUserUpdate (fail : Conn → Bool) (r : Registry) (user : User) : List Conn :=
  (sendUpdate fail r user.uuid).1

/-- Model of `send_folder_update`: same `.ok()` discard, keyed by the
folder's owner. -/
def sendFolderUpdate (fail : Conn → Bool) (r : Registry) (folder : Folder) : List Conn :=
  (sendUpdate fail r folder.user_uuid).1

/-- Model of `send_cipher_update`: one `.ok()`-discarded `send_update` per
caller-supplied user uuid. -/
def sendCipherUpdate (fail : Conn → Bool) (r : Registry) (user_uuids : List String) :
    List (String × List Conn) :=
  user_uuids.map (fun u => (u, (sendUpdate fail r u).1))

theorem sendLoop_spec (fail : Conn → Bool) (conns : List Conn) :
    sendLoop fail conns =
      (conns.takeWhile (fun c => !fail c), conns.all (fun c => !fail c)) := by
  induction conns with
  | nil => rfl
  | cons c rest ih =>
    rw [sendLoop]
    by_cases h : fail c
    · simp [h, List.takeWhile_cons, List.all_cons]
    · have hb : fail c = false := Bool.eq_false_iff.mpr h
      simp [hb, ih, List.takeWhile_cons, List.all_cons]

/-- Counterexample to C1: with connections `[0, 1]` registered for `"u1"`
and a send failure on connection `0` only, connection `1` does not receive
the frame — the `?` inside the loop aborts delivery to the remaining
connections of the same user. -/
theorem send_update_aborts_rest :
    (fun c => decide (c = 0)) 1 = false ∧
    1 ∈ lookupConns (registerConn "u1" 1 (registerConn "u1" 0 emptyReg)) "u1" ∧
    1 ∉ (sendUpdate (fun c => decide (c = 0))
          (registerConn "u1" 1 (registerConn "u1" 0 emptyReg)) "u1").1 := by
  refine ⟨rfl, ?_, ?_⟩ <;> decide

/-- Claim C1 (amended): a transmission failure to one of a user's
connections is never propagated to the publish caller (the wrappers discard
the loop's result with `.ok()`), and in `send_cipher_update` a failure for
one user id does not affect delivery to other user ids; however, within a
single user's connection list a failure aborts delivery to the remaining
connections: exactly the connections before the first failing one receive
the frame. -/
theorem send_update_error_handling (fail : Conn → Bool) (r : Registry) :
    (∀ u, (sendUpdate fail r u).1 = (lookupConns r u).takeWhile (fun c => !fail c)) ∧
    (∀ u, (sendUpdate fail r u).2 = (lookupConns r u).all (fun c => !fail c)) ∧
    (∀ user : User,
      sendUserUpdate fail r user = (lookupConns r user.uuid).takeWhile (fun c => !fail c)) ∧
    (∀ folder : Folder,
      sendFolderUpdate fail r folder =
        (lookupConns r folder.user_uuid).takeWhile (fun c => !fail c)) ∧
    (∀ user_uuids : List String,
      sendCipherUpdate fail r user_uuids =
        user_uuids.map (fun u => (u, (lookupConns r u).takeWhile (fun c => !fail c)))) := by
  have hu : ∀ u, sendUpdate fail r u =
      ((lookupConns r u).takeWhile (fun c => !fail c),
       (lookupConns r u).all (fun c => !fail c)) := by
    intro u
    rw [sendUpdate.eq_def]
    cases hr : r u
    · simp [lookupConns, hr]
    · simp [lookupConns, hr, sendLoop_spec]
  refine ⟨fun u => by rw [hu u], fun u => by rw [hu u], fun user => ?_, fun folder => ?_,
    fun uuids => ?_⟩
  · rw [sendUserUpdate, hu user.uuid]
  · rw [sendFolderUpdate, hu folder.user_uuid]
  · unfold sendCipherUpdate
    simp only [hu]

/-! ### Connection handshake: `on_open` (lines 127-163) and
`connection_lost` (lines 224-232) -/

/-- Split a character list on a separator, modelling Rust's `str::split`
with a single-character pattern: always at least one (possibly empty)
piece. -/
def splitOnChar (sep : Char) : List Char → List (List Char)
  | [] => [[]]
  | c :: rest =>
    let r := splitOnChar sep rest
    if c = sep then [] :: r
    else
      match r with
      | h :: t => (c :: h) :: t
      | [] => [[c]]

/-- Lexicographic comparison of character lists; agrees with Rust's byte-wise
`&str` ordering (UTF-8 preserves code-point order). -/
def lexLt : List Char → List Char → Bool
  | [], [] => false
  | [], _ :: _ => true
  | _ :: _, [] => false
  | a :: as, b :: bs => if a < b then true else if b < a then false else lexLt as bs

def insertSorted (s : List Char) : List (List Char) → List (List Char)
  | [] => [s]
  | t :: ts => if lexLt t s then t :: insertSorted s ts else s :: t :: ts

/-- Ascending sort, modelling `query_split.sort()`. -/
def sortChunks (l : List (List Char)) : List (List Char) :=
  l.foldr insertSorted []

/-- Model of the query parsing in `on_open`: take the part of the resource
path after `?` (`.nth(1).unwrap()` — panic when there is no `?`), split on
`&`, sort, then slice `[13..]` of the first parameter (the access token
after `access_token=`) and `[3..]` of the second (the id after `id=`).
`none` models a panic: a missing `?`, fewer than two parameters
(`query_split[1]` out of bounds), or a parameter too short for its fixed
slice offset. -/
def parseWsQuery (path : String) : Option (String × String) :=
  match (splitOnChar '?' path.data).get? 1 with
  | none => none
  | some query =>
    match sortChunks (splitOnChar '&' query) with
    | p0 :: p1 :: _ =>
      if p0.length < 13 ∨ p1.length < 3 then none
      else some (String.mk (p0.drop 13), String.mk (p1.drop 3))
    | _ => none

/-- Outcome of `on_open`: a panic (`unwrap` on `None` / out-of-bounds
slice), a `ws::Error` return, or success with the authenticated uuid. -/
inductive OnOpenResult where
  | panic
  | err
  | ok (uuid : String)
deriving DecidableEq

/-- Model of `on_open`: parse the query (panicking paths give `.panic`),
verify the token through the external `decode_jwt` (parameter `verify`;
failure returns a `ws::Error` before `user_uuid` is assigned), then assign
`user_uuid` and upsert the sender into the registry.  Returns the outcome,
the handler's `user_uuid` field afterwards, and the registry afterwards. -/
def onOpen (path : String) (verify : String → Option String) (out : Conn) (r : Registry) :
    OnOpenResult × Option String × Registry :=
  match parseWsQuery path with
  | none => (.panic, none, r)
  | some (tok, _cid) =>
    match verify tok with
    | none => (.err, none, r)
    | some uuid => (.ok uuid, some uuid, registerConn uuid out r)

/-- Model of `connection_lost`: `handler.user_uuid.unwrap()` — `none` models
the panic on a handler that never completed its handshake; otherwise the
sender is removed from the user's entry. -/
def connectionLost (user_uuid : Option String) (out : Conn) (r : Registry) : Option Registry :=
  match user_uuid with
  | none => none
  | some u => some (deregisterConn u out r)

/-- Counterexample to C3: a connection request whose path has no query
string at all (both required parameters absent) makes `on_open` panic
(`unwrap` on `None`), not return an error: the claim's "rejected with an
error" does not hold on this input. -/
theorem on_open_missing_query_panics :
    onOpen "/notifications/hub" (fun _ => some "u1") 0 emptyReg =
      (OnOpenResult.panic, none, emptyReg) ∧
    OnOpenResult.panic ≠ OnOpenResult.err := by
  exact ⟨rfl, by decide⟩

/-- Claim C3 (amended): if the token fails external verification the
connection attempt is rejected with an error, the handler keeps no user
identity and the connection is never registered; but an absent required
query parameter (or a parameter shorter than its fixed slice offset) makes
the handler panic rather than return an error — the connection is likewise
never registered in that case. -/
theorem on_open_outcomes (path : String) (verify : String → Option String)
    (out : Conn) (r : Registry) :
    (parseWsQuery path = none →
      onOpen path verify out r = (OnOpenResult.panic, none, r)) ∧
    (∀ tok cid, parseWsQuery path = some (tok, cid) → verify tok = none →
      onOpen path verify out r = (OnOpenResult.err, none, r)) ∧
    (∀ tok cid uuid, parseWsQuery path = some (tok, cid) → verify tok = some uuid →
      onOpen path verify out r =
        (OnOpenResult.ok uuid, some uuid, registerConn uuid out r)) := by
  refine ⟨fun hp => ?_, fun tok cid hp hv => ?_, fun tok cid uuid hp hv => ?_⟩
  · simp [onOpen, hp]
  · simp [onOpen, hp, hv]
  · simp [onOpen, hp, hv]

/-- Witness for C3 on both a failing and a succeeding handshake. -/
theorem on_open_outcomes_witness :
    parseWsQuery "/notifications/hub?access_token=abc&id=1" = some ("abc", "1") ∧
    onOpen "/notifications/hub?access_token=abc&id=1"
        (fun t => if t = "abc" then some "u1" else none) 0 emptyReg =
      (OnOpenResult.ok "u1", some "u1", registerConn "u1" 0 emptyReg) :=
  ⟨by decide,
   (on_open_outcomes "/notifications/hub?access_token=abc&id=1"
      (fun t => if t = "abc" then some "u1" else none) 0 emptyReg).2.2
      "abc" "1" "u1" (by decide) (by decide)⟩

/-- Claim C10: teardown of a connection whose handshake never completed is
not total: `on_open` leaves `user_uuid = None` on every non-success path,
and `connection_lost` unconditionally unwraps it, so closing such a
connection panics instead of performing a no-op deregistration. -/
theorem connection_lost_panics_after_failed_open (path : String)
    (verify : String → Option String) (out : Conn) (r : Registry)
    (h : ∀ u, (onOpen path verify out r).1 ≠ OnOpenResult.ok u) :
    (onOpen path verify out r).2.1 = none ∧
    connectionLost (onOpen path verify out r).2.1 out (onOpen path verify out r).2.2 = none := by
  cases hp : parseWsQuery path with
  | none => simp [onOpen, hp, connectionLost]
  | some pr =>
    obtain ⟨tok, cid⟩ := pr
    cases hv : verify tok with
    | none => simp [onOpen, hp, hv, connectionLost]
    | some uuid => exact absurd (by simp [onOpen, hp, hv]) (h uuid)

/-- Witness for C10 on a concrete failing handshake (no query string). -/
theorem connection_lost_panics_witness :
    (onOpen "/hub" (fun _ => none) 0 emptyReg).2.1 = none ∧
    connectionLost (onOpen "/hub" (fun _ => none) 0 emptyReg).2.1 0
      (onOpen "/hub" (fun _ => none) 0 emptyReg).2.2 = none :=
  connection_lost_panics_after_failed_open "/hub" (fun _ => none) 0 emptyReg
    (by
      intro u h
      rw [show onOpen "/hub" (fun _ => none) 0 emptyReg =
        (OnOpenResult.panic, none, emptyReg) from rfl] at h
      exact OnOpenResult.noConfusion h)

/-! ### Protocol negotiation: `on_message` (lines 165-180), the
`InitialMessage` deserialization (`serde_json::from_str`) and the fixed
handshake acknowledgement (lines 114-115) -/

/-- A parsed JSON value, as `serde_json` classifies it: the float payload is
irrelevant to `InitialMessage` (a float in a typed field is a type error,
elsewhere it is ignored), so only its presence is recorded. -/
inductive Jv where
  | null
  | boolean (b : Bool)
  | intNum (i : Int)
  | floatNum
  | str (s : String)
  | arr (elems : List Jv)
  | obj (members : List (String × Jv))

/-- JSON whitespace. -/
def jsonWs (c : Char) : Bool :=
  c = ' ' || c = '\t' || c = '\n' || c = '\r'

def skipWs : List Char → List Char
  | [] => []
  | c :: cs => if jsonWs c then skipWs cs else c :: cs

def hexVal (c : Char) : Option Nat :=
  if '0' ≤ c ∧ c ≤ '9' then some (c.toNat - '0'.toNat)
  else if 'a' ≤ c ∧ c ≤ 'f' then some (c.toNat - 'a'.toNat + 10)
  else if 'A' ≤ c ∧ c ≤ 'F' then some (c.toNat - 'A'.toNat + 10)
  else none

def hex4 : List Char → Option (Nat × List Char)
  | a :: b :: c :: d :: rest =>
    match hexVal a, hexVal b, hexVal c, hexVal d with
    | some x, some y, some z, some w => some (((x * 16 + y) * 16 + z) * 16 + w, rest)
    | _, _, _, _ => none
  | _ => none

/-- JSON string-literal body (after the opening quote): standard escapes,
`\uXXXX` with surrogate-pair combination, raw control characters rejected —
as `serde_json` does. -/
def parseStrBody (fuel : Nat) (acc : List Char) (cs : List Char) : Option (String × List Char) :=
  match fuel with
  | 0 => none
  | fuel + 1 =>
    match cs with
    | [] => none
    | c :: cs1 =>
      if c = '"' then some (String.mk acc.reverse, cs1)
      else if c = '\\' then
        match cs1 with
        | [] => none
        | e :: cs2 =>
          if e = '"' then parseStrBody fuel ('"' :: acc) cs2
          else if e = '\\' then parseStrBody fuel ('\\' :: acc) cs2
          else if e = '/' then parseStrBody fuel ('/' :: acc) cs2
          else if e = 'b' then parseStrBody fuel ('\x08' :: acc) cs2
          else if e = 'f' then parseStrBody fuel ('\x0c' :: acc) cs2
          else if e = 'n' then parseStrBody fuel ('\n' :: acc) cs2
          else if e = 'r' then parseStrBody fuel ('\r' :: acc) cs2
          else if e = 't' then parseStrBody fuel ('\t' :: acc) cs2
          else if e = 'u' then
            match hex4 cs2 with
            | none => none
            | some (n, cs3) =>
              if 0xD800 ≤ n ∧ n ≤ 0xDBFF then
                match cs3 with
                | '\\' :: 'u' :: cs4 =>
                  match hex4 cs4 with
                  | none => none
                  | some (m, cs5) =>
                    if 0xDC00 ≤ m ∧ m ≤ 0xDFFF then
                      parseStrBody fuel
                        (Char.ofNat (0x10000 + (n - 0xD800) * 0x400 + (m - 0xDC00)) :: acc) cs5
                    else none
                | _ => none
              else if 0xDC00 ≤ n ∧ n ≤ 0xDFFF then none
              else parseStrBody fuel (Char.ofNat n :: acc) cs3
          else none
      else if c.toNat < 0x20 then none
      else parseStrBody fuel (c :: acc) cs1

def headIsDigit : List Char → Bool
  | d :: _ => decide ('0' ≤ d ∧ d ≤ '9')
  | [] => false

def takeDigits : List Char → List Char × List Char
  | [] => ([], [])
  | c :: cs =>
    if '0' ≤ c ∧ c ≤ '9' then
      let p := takeDigits cs
      (c :: p.1, p.2)
    else ([], c :: cs)

def digitsToNat (ds : List Char) : Nat :=
  ds.foldl (fun a c => a * 10 + (c.toNat - '0'.toNat)) 0

/-- JSON number, as `serde_json` without `arbitrary_precision` parses it:
optional minus, no leading zeros, optional fraction and exponent (which make
it a float); integers outside `i64`/`u64` range are a parse error, in-range
integers are classified as integers. -/
def parseNumber (cs0 : List Char) : Option (Jv × List Char) :=
  let sp := match cs0 with
    | '-' :: r => (true, r)
    | _ => (false, cs0)
  let neg := sp.1
  match sp.2 with
  | [] => none
  | c :: rest =>
    if '0' ≤ c ∧ c ≤ '9' then
      let ip : List Char × List Char :=
        if c = '0' then (['0'], rest)
        else takeDigits (c :: rest)
      if c = '0' ∧ headIsDigit ip.2 then none
      else
        let fr : Option (Bool × List Char) :=
          match ip.2 with
          | '.' :: r2 =>
            let fp := takeDigits r2
            if fp.1.isEmpty then none else some (true, fp.2)
          | _ => some (false, ip.2)
        match fr with
        | none => none
        | some (hasFrac, cs3) =>
          let ex : Option (Bool × List Char) :=
            match cs3 with
            | e :: r3 =>
              if e = 'e' ∨ e = 'E' then
                let r4 := match r3 with
                  | s :: r5 => if s = '+' ∨ s = '-' then r5 else r3
                  | [] => r3
                let ep := takeDigits r4
                if ep.1.isEmpty then none else some (true, ep.2)
              else some (false, cs3)
            | [] => some (false, cs3)
          match ex with
          | none => none
          | some (hasExp, cs4) =>
            if hasFrac ∨ hasExp then some (Jv.floatNum, cs4)
            else
              let n := digitsToNat ip.1
              if neg then
                if n ≤ 2 ^ 63 then some (Jv.intNum (-(n : Int)), cs4) else none
              else
                if n < 2 ^ 64 then some (Jv.intNum (n : Int), cs4) else none
    else none

mutual

/-- A JSON value with leading whitespace, as `serde_json` parses it. -/
def parseValue (fuel : Nat) (cs : List Char) : Option (Jv × List Char) :=
  match fuel with
  | 0 => none
  | fuel + 1 =>
    match skipWs cs with
    | [] => none
    | c :: cs1 =>
      if c = 'n' then
        match cs1 with
        | 'u' :: 'l' :: 'l' :: r => some (Jv.null, r)
        | _ => none
      else if c = 't' then
        match cs1 with
        | 'r' :: 'u' :: 'e' :: r => some (Jv.boolean true, r)
        | _ => none
      else if c = 'f' then
        match cs1 with
        | 'a' :: 'l' :: 's' :: 'e' :: r => some (Jv.boolean false, r)
        | _ => none
      else if c = '"' then
        match parseStrBody (cs1.length + 1) [] cs1 with
        | some (s, r) => some (Jv.str s, r)
        | none => none
      else if c = '[' then
        match skipWs cs1 with
        | ']' :: r => some (Jv.arr [], r)
        | _ =>
          match parseValue fuel cs1 with
          | none => none
          | some (v, r2) =>
            match parseArrTail fuel r2 with
            | none => none
            | some (vs, r3) => some (Jv.arr (v :: vs), r3)
      else if c = '\x7b' then
        match skipWs cs1 with
        | '\x7d' :: r => some (Jv.obj [], r)
        | _ =>
          match parseMember fuel cs1 with
          | none => none
          | some (kv, r2) =>
            match parseObjTail fuel r2 with
            | none => none
            | some (kvs, r3) => some (Jv.obj (kv :: kvs), r3)
      else if c = '-' ∨ ('0' ≤ c ∧ c ≤ '9') then parseNumber (c :: cs1)
      else none

/-- The rest of a non-empty JSON array: `(',' value)* ']'`. -/
def parseArrTail (fuel : Nat) (cs : List Char) : Option (List Jv × List Char) :=
  match fuel with
  | 0 => none
  | fuel + 1 =>
    match skipWs cs with
    | ']' :: r => some ([], r)
    | ',' :: r =>
      match parseValue fuel r with
      | none => none
      | some (v, r2) =>
        match parseArrTail fuel r2 with
        | none => none
        | some (vs, r3) => some (v :: vs, r3)
    | _ => none

/-- One `"key" : value` member of a JSON object. -/
def parseMember (fuel : Nat) (cs : List Char) : Option ((String × Jv) × List Char) :=
  match fuel with
  | 0 => none
  | fuel + 1 =>
    match skipWs cs with
    | '"' :: cs1 =>
      match parseStrBody (cs1.length + 1) [] cs1 with
      | none => none
      | some (k, cs2) =>
        match skipWs cs2 with
        | ':' :: cs3 =>
          match parseValue fuel cs3 with
          | none => none
          | some (v, cs4) => some ((k, v), cs4)
        | _ => none
    | _ => none

/-- The rest of a non-empty JSON object: `(',' member)* '\x7d'`. -/
def parseObjTail (fuel : Nat) (cs : List Char) : Option (List (String × Jv) × List Char) :=
  match fuel with
  | 0 => none
  | fuel + 1 =>
    match skipWs cs with
    | '\x7d' :: r => some ([], r)
    | ',' :: r =>
      match parseMember fuel r with
      | none => none
      | some (kv, r2) =>
        match parseObjTail fuel r2 with
        | none => none
        | some (kvs, r3) => some (kv :: kvs, r3)
    | _ => none

end

/-- The `#[derive(Deserialize)] struct InitialMessage` visitor: walk the
object's members in order; `protocol` must be a string and `version` an
integer fitting `i32`, duplicates of a known field are an error, unknown
fields are parsed and ignored (serde's default), and both fields must be
present at the end. -/
def extractIM : List (String × Jv) → Option String → Option Int → Option (String × Int)
  | [], po, vo =>
    match po, vo with
    | some p, some v => some (p, v)
    | _, _ => none
  | (k, val) :: rest, po, vo =>
    if k = "protocol" then
      match po, val with
      | none, Jv.str s => extractIM rest (some s) vo
      | _, _ => none
    else if k = "version" then
      match vo, val with
      | none, Jv.intNum i =>
        if -(2 ^ 31) ≤ i ∧ i < 2 ^ 31 then extractIM rest po (some i) else none
      | _, _ => none
    else extractIM rest po vo

/-- Model of `serde_json::from_str::<InitialMessage>`: parse one JSON value,
require only whitespace after it, require it to be an object, and run the
struct visitor.  The fuel bound `length + 1` dominates the nesting depth
(every recursive descent consumes at least one character). -/
def fromStrInitialMessage (cs : List Char) : Option (String × Int) :=
  match parseValue (cs.length + 1) cs with
  | none => none
  | some (v, rest) =>
    if (skipWs rest).isEmpty then
      match v with
      | Jv.obj members => extractIM members none none
      | _ => none
    else none

/-- A `ws::Message`: text or binary. -/
inductive WsMessage where
  | text (t : String)
  | binary (bs : List Nat)
deriving DecidableEq

/-- The fixed 3-byte handshake acknowledgement (lines 114-115). -/
def INITIAL_RESPONSE : List Nat := [0x7b, 0x7d, 0x1e]

/-- Model of `on_message`: for a text message, strip the last character
(the record separator slot — `&text[..text.len() - 1]`, a panic on empty
text, modelled as `none`), try to deserialize an `InitialMessage`, send the
fixed acknowledgement iff `protocol == "messagepack" && version == 1`, and
otherwise echo the original message unchanged (also for binary messages). -/
def onMessage (msg : WsMessage) : Option WsMessage :=
  match msg with
  | .text t =>
    if t.data.isEmpty then none
    else
      match fromStrInitialMessage t.data.dropLast with
      | some (proto, ver) =>
        if proto = "messagepack" ∧ ver = 1 then some (.binary INITIAL_RESPONSE)
        else some (.text t)
      | none => some (.text t)
  | .binary bs => some (.binary bs)

/-- The negotiation message of the claim:
`(protocol messagepack, version 1)` followed by the record separator. -/
def canonicalNegotiation : String :=
  "\x7b\"protocol\":\"messagepack\",\"version\":1\x7d\x1e"

/-- A negotiation body with one extra member: a different JSON body that
serde still deserializes to `protocol == "messagepack", version == 1`. -/
def extendedNegotiation : String :=
  "\x7b\"protocol\":\"messagepack\",\"version\":1,\"x\":0\x7d\x1e"

/-- A negotiation body with the wrong version, which is echoed. -/
def rejectedNegotiation : String :=
  "\x7b\"protocol\":\"messagepack\",\"version\":2\x7d\x1e"

/-- Counterexample to C4: `extendedNegotiation` carries a JSON body other
than the claimed object (it has an extra member), yet the handler replies
with the acknowledgement frame, not an echo — serde ignores unknown fields,
so "any other JSON body is echoed back unchanged" fails. -/
theorem negotiation_extra_member_acked :
    onMessage (WsMessage.text extendedNegotiation) =
      some (WsMessage.binary INITIAL_RESPONSE) ∧
    WsMessage.binary INITIAL_RESPONSE ≠ WsMessage.text extendedNegotiation := by
  exact ⟨by decide, by decide⟩

/-- Claim C4 (amended): the canonical negotiation text (the claimed JSON
object followed by the record separator) is answered with exactly the
3-byte acknowledgement frame 0x7B 0x7D 0x1E; and every non-empty text
message whose stripped body does not deserialize (serde semantics: unknown
members ignored) to protocol "messagepack" and version 1 is echoed back
unchanged. -/
theorem on_message_negotiation :
    onMessage (WsMessage.text canonicalNegotiation) =
      some (WsMessage.binary INITIAL_RESPONSE) ∧
    (∀ t : String, t.data.isEmpty = false →
      (∀ p v, fromStrInitialMessage t.data.dropLast = some (p, v) →
        ¬(p = "messagepack" ∧ v = 1)) →
      onMessage (WsMessage.text t) = some (WsMessage.text t)) := by
  constructor
  · decide
  · intro t ht hne
    cases hf : fromStrInitialMessage t.data.dropLast with
    | none => simp [onMessage, ht, hf]
    | some pv =>
      obtain ⟨p, v⟩ := pv
      simp [onMessage, ht, hf, hne p v hf]

/-- Witness for C4: the wrong-version body is echoed back unchanged. -/
theorem on_message_negotiation_witness :
    onMessage (WsMessage.text rejectedNegotiation) =
      some (WsMessage.text rejectedNegotiation) :=
  (on_message_negotiation).2 rejectedNegotiation (by decide)
    (by
      intro p v h
      rw [show fromStrInitialMessage rejectedNegotiation.data.dropLast =
        some ("messagepack", 2) from by decide] at h
      injection h with h2
      rw [Prod.mk.injEq] at h2
      obtain ⟨hp, hv⟩ := h2
      intro hc
      rw [← hv] at hc
      exact absurd hc.2 (by decide))
